import Mathlib

/-!
Shallow embedding of the data-access facade in src/utils/database.py
(class Database): the three tables (guilds, players, guild_information),
the nine query operations, and the row-shaping helpers (format_json,
PostgreSQL ROUND to 2 decimals, array_length, cardinality,
DISTINCT ON ... ORDER BY).

Modelling conventions:
* timestamps are integers; NOW() is a parameter now : Int, and the SQL
  expression NOW() - capture_date (an interval) is the integer now - capture_date;
* PostgreSQL numeric values are rationals (REAL columns are cast to numeric before
  ROUND in every query, and ROUND on numeric rounds halves away from zero);
* a fetched record (asyncpg.Record turned into a dict) is an association list
  of field name to value, in the select-list order;
* in DISTINCT ON (guild_id) ... ORDER BY guild_id, capture_date DESC, the
  guild_id sort key only groups the rows, and PostgreSQL keeps the first row of
  each group, i.e. one with maximal capture_date (the choice among ties being
  unspecified); the model keeps the first stored maximal row of each group and
  lists the groups in first-occurrence order (no claim concerns the cross-guild
  order, which the spec leaves undefined); fetchrow takes the head of the result;
* json.loads (an external library) is modelled on the fragment relevant here:
  JSON string literals and null; everything else is a decode error, as is
  applying it to a non-string value (Python TypeError).
-/

/-- Result of Python json.loads in the model: a decoded JSON string literal,
JSON null, or a decode failure. -/
inductive JsonVal where
  | jstr (s : String)
  | jnull
  | jerr
deriving DecidableEq, Repr

/-- Model of json.loads on a text value: a JSON string literal gives the inner
text, the literal null gives jnull, anything else is a decode failure. -/
def parseJsonText (s : String) : JsonVal :=
  if s = "null" then JsonVal.jnull
  else if 2 ≤ s.length ∧ s.front = '"' ∧ s.back = '"' then
    JsonVal.jstr ((s.drop 1).dropRight 1)
  else JsonVal.jerr

/-- A database value as it appears in a shaped record: text, integer, numeric,
text array, SQL NULL, a JSON-decoded value, or an error from decoding. -/
inductive Val where
  | vstr (s : String)
  | vint (n : Int)
  | vrat (q : Rat)
  | varr (xs : List String)
  | vnull
  | vjson (j : JsonVal)
  | verror
deriving DecidableEq, Repr

/-- json.loads applied to a record value: defined on text, a TypeError
(surfaced as an error value) on anything else. -/
def jloads : Val → Val
  | Val.vstr s => Val.vjson (parseJsonText s)
  | _ => Val.verror

/-- One row of the guilds table (one snapshot of one guild). -/
structure GuildRow where
  guild_id : String
  guild_name : String
  capture_date : Int
  players : List String
  average_weight : Rat
  average_skills : Rat
  average_catacombs : Rat
  average_slayer : Rat
  scammers : Int
  position_change : Int
deriving DecidableEq, Repr

/-- One row of the players table (one snapshot of one player). -/
structure PlayerRow where
  uuid : String
  name : String
  weight : Rat
  skill_weight : Rat
  slayer_weight : Rat
  dungeon_weight : Rat
  average_skill : Rat
  catacomb : Rat
  catacomb_xp : Rat
  total_slayer : Rat
  capture_date : Int
  scam_reason : Option String
deriving DecidableEq, Repr

/-- One row of the guild_information mapping table. -/
structure GuildInfoRow where
  guild_id : String
  discord : String
deriving DecidableEq, Repr

/-- The persistent state the facade queries: the three tables. -/
structure DB where
  guilds : List GuildRow
  players : List PlayerRow
  guild_information : List GuildInfoRow
deriving DecidableEq, Repr

/-- An opaque pooled connection handle (asyncpg connection); which handle runs
a query never changes the rows a pure state reads, so only identity matters. -/
abbrev Conn := Nat

/-- PostgreSQL ROUND(x::numeric, 2): round to 2 decimal places, halves away
from zero. -/
def round2 (q : Rat) : Rat :=
  if q < 0 then -(((-q * 100 + 1 / 2).floor : Rat) / 100)
  else (((q * 100 + 1 / 2).floor : Rat) / 100)

/-- PostgreSQL array_length(xs, 1): NULL on an empty array (it has no
dimension 1), otherwise the length. -/
def array_length (xs : List String) : Val :=
  if xs = [] then Val.vnull else Val.vint (xs.length : Int)

/-- PostgreSQL cardinality(xs): the number of elements, 0 on an empty array. -/
def cardinality (xs : List String) : Val :=
  Val.vint (xs.length : Int)

/-- The ORDER BY capture_date (ascending) key of the history queries, on the
timestamp column. -/
def captureOrder (a b : GuildRow) : Prop :=
  a.capture_date ≤ b.capture_date

instance (a b : GuildRow) : Decidable (captureOrder a b) :=
  inferInstanceAs (Decidable (a.capture_date ≤ b.capture_date))

instance : IsTotal GuildRow captureOrder :=
  ⟨fun a b => Int.le_total a.capture_date b.capture_date⟩

instance : IsTrans GuildRow captureOrder :=
  ⟨fun _ _ _ h1 h2 => le_trans h1 h2⟩

/-- The row ORDER BY capture_date DESC puts first in a group of rows sharing
one guild_id, hence the row DISTINCT ON (guild_id) keeps for that group: a row
with maximal capture_date (PostgreSQL leaves the choice among equal timestamps
unspecified; the model keeps the first stored maximal row). -/
def latestIn (r : GuildRow) (rest : List GuildRow) : GuildRow :=
  rest.foldl (fun best x => if best.capture_date < x.capture_date then x else best) r

/-- Worker for distinctOnGuildId: walk the rows once; at the first row of each
guild_id group not yet seen, emit the maximal-capture_date row of the whole
group; skip rows of groups already emitted. -/
def distinctOnAux : List GuildRow → List String → List GuildRow
  | [], _ => []
  | r :: rest, seen =>
      if r.guild_id ∈ seen then distinctOnAux rest seen
      else
        latestIn r (rest.filter (fun x => x.guild_id == r.guild_id)) ::
          distinctOnAux rest (r.guild_id :: seen)

/-- DISTINCT ON (guild_id) ... ORDER BY guild_id, capture_date DESC: one row
per guild_id group, the kept row having maximal capture_date in its group;
groups in first-occurrence order (the claims do not concern cross-guild
order, which the guild_id sort key would determine and the spec leaves
undefined). -/
def distinctOnGuildId (l : List GuildRow) : List GuildRow :=
  distinctOnAux l []

/-- Database.format_json on the fields of one record: values of keys listed in
self.json_keys are passed through json.loads, every other value is unchanged. -/
def format_fields (json_keys : List String) (r : List (String × Val)) : List (String × Val) :=
  r.map (fun kv => (kv.1, if kv.1 ∈ json_keys then jloads kv.2 else kv.2))

/-- Database.format_json: None stays None, otherwise the per-field rule. -/
def format_json (json_keys : List String) : Option (List (String × Val)) → Option (List (String × Val))
  | none => none
  | some r => some (format_fields json_keys r)

/-- The rows the get_guilds / get_id_name_autocomplete SQL selects:
DISTINCT ON (guild_id) ... FROM guilds ORDER BY guild_id, capture_date DESC. -/
def get_guilds_rows (db : DB) : List GuildRow :=
  distinctOnGuildId db.guilds

/-- The select list of Database.get_guilds for one row: the four averages
rounded, guild_id, guild_name, array_length(players, 1) AS players,
NOW() - capture_date AS time_difference, scammers, position_change. -/
def guildSummaryRecord (now : Int) (r : GuildRow) : List (String × Val) :=
  [("average_catacombs", Val.vrat (round2 r.average_catacombs)),
   ("average_skills", Val.vrat (round2 r.average_skills)),
   ("average_slayer", Val.vrat (round2 r.average_slayer)),
   ("average_weight", Val.vrat (round2 r.average_weight)),
   ("guild_id", Val.vstr r.guild_id),
   ("guild_name", Val.vstr r.guild_name),
   ("players", array_length r.players),
   ("time_difference", Val.vint (now - r.capture_date)),
   ("scammers", Val.vint r.scammers),
   ("position_change", Val.vint r.position_change)]

/-- Database.get_guilds: the DISTINCT ON query, each row shaped and passed
through format_json. -/
def get_guilds (json_keys : List String) (now : Int) (db : DB) : List (List (String × Val)) :=
  (get_guilds_rows db).map (fun r => format_fields json_keys (guildSummaryRecord now r))

/-- The row Database.get_guild fetches: the same DISTINCT ON selection
restricted by WHERE guild_id = $1, then fetchrow (the head). -/
def get_guild_row (db : DB) (g : String) : Option GuildRow :=
  (distinctOnGuildId (db.guilds.filter (fun r => r.guild_id == g))).head?

/-- The select list of Database.get_guild for one row: as in get_guilds but
with the full players array and without position_change. -/
def guildRecord (now : Int) (r : GuildRow) : List (String × Val) :=
  [("average_catacombs", Val.vrat (round2 r.average_catacombs)),
   ("average_skills", Val.vrat (round2 r.average_skills)),
   ("average_slayer", Val.vrat (round2 r.average_slayer)),
   ("average_weight", Val.vrat (round2 r.average_weight)),
   ("guild_id", Val.vstr r.guild_id),
   ("guild_name", Val.vstr r.guild_name),
   ("players", Val.varr r.players),
   ("time_difference", Val.vint (now - r.capture_date)),
   ("scammers", Val.vint r.scammers)]

/-- Database.get_guild: fetchrow on conn when one is passed, else on the pool
(same query either way), then format_json; a missing row stays None. -/
def get_guild (json_keys : List String) (now : Int) (db : DB) (g : String)
    (conn : Option Conn) : Option (List (String × Val)) :=
  format_json json_keys ((get_guild_row db g).map (guildRecord now))

/-- The rows the get_guild_metrics / get_guild_history SQL selects: all
snapshots WHERE guild_id = $1 ORDER BY capture_date. -/
def guild_history_rows (db : DB) (g : String) : List GuildRow :=
  List.insertionSort captureOrder (db.guilds.filter (fun r => r.guild_id == g))

/-- The select list of Database.get_guild_metrics for one row: four rounded
averages, cardinality(players) AS member_count, time_difference. -/
def metricsRecord (now : Int) (r : GuildRow) : List (String × Val) :=
  [("average_weight", Val.vrat (round2 r.average_weight)),
   ("average_skills", Val.vrat (round2 r.average_skills)),
   ("average_catacombs", Val.vrat (round2 r.average_catacombs)),
   ("average_slayer", Val.vrat (round2 r.average_slayer)),
   ("member_count", cardinality r.players),
   ("time_difference", Val.vint (now - r.capture_date))]

/-- Database.get_guild_metrics: every snapshot of the guild oldest first, each
shaped and passed through format_json; the Python body returns [] when the
fetch is empty, which coincides with mapping over no rows. -/
def get_guild_metrics (json_keys : List String) (now : Int) (db : DB) (g : String) :
    List (List (String × Val)) :=
  (guild_history_rows db g).map (fun r => format_fields json_keys (metricsRecord now r))

/-- The select list of Database.get_guild_history for one row: the raw players
array and time_difference, no rounding. -/
def historyRecord (now : Int) (r : GuildRow) : List (String × Val) :=
  [("players", Val.varr r.players),
   ("time_difference", Val.vint (now - r.capture_date))]

/-- Database.get_guild_history: every snapshot of the guild oldest first, each
shaped and passed through format_json; [] when the guild has no rows. -/
def get_guild_history (json_keys : List String) (now : Int) (db : DB) (g : String) :
    List (List (String × Val)) :=
  (guild_history_rows db g).map (fun r => format_fields json_keys (historyRecord now r))

/-- Database.get_id_name_autocomplete: the DISTINCT ON selection, each row
rebuilt directly as a dict with keys id and name; format_json is not applied. -/
def get_id_name_autocomplete (db : DB) : List (List (String × Val)) :=
  (get_guilds_rows db).map (fun r => [("id", Val.vstr r.guild_id), ("name", Val.vstr r.guild_name)])

/-- Database.get_names: SELECT uuid, name WHERE uuid = ANY($1), rebuilt
directly as a uuid-to-name dict; format_json is not applied. -/
def get_names (db : DB) (uuids : List String) : List (String × String) :=
  (db.players.filter (fun p => uuids.contains p.uuid)).map (fun p => (p.uuid, p.name))

/-- The select list of Database.get_players for one row: uuid, name, four
rounded fields, time_difference, scam_reason. -/
def playerRecord (now : Int) (p : PlayerRow) : List (String × Val) :=
  [("uuid", Val.vstr p.uuid),
   ("name", Val.vstr p.name),
   ("weight", Val.vrat (round2 p.weight)),
   ("average_skill", Val.vrat (round2 p.average_skill)),
   ("catacomb", Val.vrat (round2 p.catacomb)),
   ("total_slayer", Val.vrat (round2 p.total_slayer)),
   ("time_difference", Val.vint (now - p.capture_date)),
   ("scam_reason", match p.scam_reason with
     | some s => Val.vstr s
     | none => Val.vnull)]

/-- Database.get_players: every stored row whose uuid is listed (latest-only is
not enforced), fetched on conn when one is passed, shaped and passed through
format_json. -/
def get_players (json_keys : List String) (now : Int) (db : DB) (uuids : List String)
    (conn : Option Conn) : List (List (String × Val)) :=
  (db.players.filter (fun p => uuids.contains p.uuid)).map
    (fun p => format_fields json_keys (playerRecord now p))

/-- Database.upsert_guild_info: INSERT ... ON CONFLICT (guild_id) DO UPDATE
SET discord = $2 against the uniqueness constraint on guild_id: overwrite the
conflicting row when one exists, else append a new row. -/
def upsert_guild_info (db : DB) (g d : String) : DB :=
  { db with guild_information :=
      if db.guild_information.any (fun r => r.guild_id == g) then
        db.guild_information.map (fun r =>
          if r.guild_id == g then { r with discord := d } else r)
      else
        db.guild_information ++ [{ guild_id := g, discord := d }] }

/-- Database.get_guild_discord: fetchrow of SELECT discord WHERE guild_id = $1
on conn when one is passed, else on the pool; the discord field of the row, or
None when no row matches. -/
def get_guild_discord (db : DB) (g : String) (conn : Option Conn) : Option String :=
  ((db.guild_information.filter (fun r => r.guild_id == g)).head?).map (fun r => r.discord)

/-- The nine operations of the catalog. -/
inductive Op where
  | get_guilds
  | get_guild
  | get_guild_metrics
  | get_guild_history
  | get_id_name_autocomplete
  | get_names
  | get_players
  | upsert_guild_info
  | get_guild_discord
deriving DecidableEq, Repr

/-- Which operations take the optional conn parameter in their Python
signature (a caller-supplied connection used instead of the pool): get_guild,
get_players and get_guild_discord declare conn=None; the other six signatures
have no such parameter and always use self.pool. -/
def hasConnParam : Op → Bool
  | Op.get_guild => true
  | Op.get_players => true
  | Op.get_guild_discord => true
  | _ => false

/-- Database.get_names as the row-shaping contract of the spec describes it:
the decoding rule applied to the name and uuid fields of each fetched row when
they are listed in json_keys. Used only to compare against the implemented
get_names. -/
def get_names_asSpecified (json_keys : List String) (db : DB) (uuids : List String) :
    List (String × Val) :=
  (db.players.filter (fun p => uuids.contains p.uuid)).map
    (fun p => (p.uuid,
      if "name" ∈ json_keys then jloads (Val.vstr p.name) else Val.vstr p.name))

/-! ### Concrete tables for the witnesses -/

/-- An older snapshot of guild g1. -/
def rowG1a : GuildRow :=
  { guild_id := "g1", guild_name := "Guild One", capture_date := 5, players := ["u1"],
    average_weight := 1, average_skills := 2, average_catacombs := 3, average_slayer := 4,
    scammers := 0, position_change := 1 }

/-- The latest snapshot of guild g1. -/
def rowG1b : GuildRow :=
  { rowG1a with capture_date := 9, players := ["u1", "u2"] }

/-- The only snapshot of guild g2: its players array is empty. -/
def rowG2 : GuildRow :=
  { rowG1a with guild_id := "g2", guild_name := "Guild Two", capture_date := 7, players := [] }

/-- A stored player snapshot. -/
def playerU1 : PlayerRow :=
  { uuid := "u1", name := "Alice", weight := 10, skill_weight := 1, slayer_weight := 2,
    dungeon_weight := 3, average_skill := 20, catacomb := 30, catacomb_xp := 40,
    total_slayer := 50, capture_date := 5, scam_reason := none }

/-- A stored player whose name column holds JSON-encoded text. -/
def playerJson : PlayerRow :=
  { playerU1 with uuid := "uj", name := "\"abc\"" }

/-- The example database state. -/
def dbEx : DB :=
  { guilds := [rowG1a, rowG2, rowG1b],
    players := [playerU1, playerJson],
    guild_information := [{ guild_id := "g0", discord := "d0" }] }

/-! ### Properties of the latest-row selection -/

theorem latestIn_cons (r x : GuildRow) (l : List GuildRow) :
    latestIn r (x :: l) = latestIn (if r.capture_date < x.capture_date then x else r) l := rfl

theorem latestIn_mem (r : GuildRow) (l : List GuildRow) : latestIn r l ∈ r :: l := by
  induction l generalizing r with
  | nil => exact List.mem_cons_self _ _
  | cons x xs ih =>
    rw [latestIn_cons]
    rcases List.mem_cons.mp (ih (if r.capture_date < x.capture_date then x else r)) with h | h
    · rw [h]
      by_cases hc : r.capture_date < x.capture_date
      · rw [if_pos hc]
        exact List.mem_cons_of_mem _ (List.mem_cons_self _ _)
      · rw [if_neg hc]
        exact List.mem_cons_self _ _
    · exact List.mem_cons_of_mem _ (List.mem_cons_of_mem _ h)

theorem le_latestIn (r : GuildRow) (l : List GuildRow) :
    r.capture_date ≤ (latestIn r l).capture_date := by
  induction l generalizing r with
  | nil => exact le_refl _
  | cons x xs ih =>
    rw [latestIn_cons]
    by_cases hc : r.capture_date < x.capture_date
    · rw [if_pos hc]
      exact le_trans (le_of_lt hc) (ih x)
    · rw [if_neg hc]
      exact ih r

theorem mem_le_latestIn (r : GuildRow) (l : List GuildRow) :
    ∀ x ∈ l, x.capture_date ≤ (latestIn r l).capture_date := by
  induction l generalizing r with
  | nil => intro x hx; cases hx
  | cons y ys ih =>
    intro x hx
    rw [latestIn_cons]
    rcases List.mem_cons.mp hx with h | h
    · subst h
      by_cases hc : r.capture_date < x.capture_date
      · rw [if_pos hc]
        exact le_latestIn x ys
      · rw [if_neg hc]
        exact le_trans (le_of_not_lt hc) (le_latestIn r ys)
    · by_cases hc : r.capture_date < y.capture_date
      · rw [if_pos hc]
        exact ih y x h
      · rw [if_neg hc]
        exact ih r x h

theorem latestIn_guild_id (r : GuildRow) (l : List GuildRow)
    (h : ∀ x ∈ l, x.guild_id = r.guild_id) : (latestIn r l).guild_id = r.guild_id := by
  rcases List.mem_cons.mp (latestIn_mem r l) with h1 | h1
  · rw [h1]
  · exact h _ h1

theorem latestIn_filter_guild_id (r : GuildRow) (rest : List GuildRow) :
    (latestIn r (rest.filter (fun x => x.guild_id == r.guild_id))).guild_id = r.guild_id :=
  latestIn_guild_id r _ (fun x hx => eq_of_beq (List.mem_filter.mp hx).2)

/-! ### Properties of the DISTINCT ON (guild_id) selection -/

theorem distinctOnAux_sound (l : List GuildRow) :
    ∀ (seen : List String), ∀ y ∈ distinctOnAux l seen,
      y ∈ l ∧ y.guild_id ∉ seen ∧
        ∀ s ∈ l, s.guild_id = y.guild_id → s.capture_date ≤ y.capture_date := by
  induction l with
  | nil => intro seen y hy; cases hy
  | cons r rest ih =>
    intro seen y hy
    simp only [distinctOnAux] at hy
    by_cases hs : r.guild_id ∈ seen
    · rw [if_pos hs] at hy
      obtain ⟨h1, h2, h3⟩ := ih seen y hy
      refine ⟨List.mem_cons_of_mem _ h1, h2, ?_⟩
      intro s hsm hgid
      rcases List.mem_cons.mp hsm with h | h
      · subst h
        exact absurd (hgid ▸ hs) h2
      · exact h3 s h hgid
    · rw [if_neg hs] at hy
      rcases List.mem_cons.mp hy with h | h
      · subst h
        have hid := latestIn_filter_guild_id r rest
        have hmem := latestIn_mem r (rest.filter (fun x => x.guild_id == r.guild_id))
        refine ⟨?_, by rw [hid]; exact hs, ?_⟩
        · rcases List.mem_cons.mp hmem with h1 | h1
          · rw [h1]
            exact List.mem_cons_self _ _
          · exact List.mem_cons_of_mem _ (List.mem_filter.mp h1).1
        · intro s hsm hgid
          rw [hid] at hgid
          rcases List.mem_cons.mp hsm with h1 | h1
          · subst h1
            exact le_latestIn _ _
          · exact mem_le_latestIn r _ s (List.mem_filter.mpr ⟨h1, beq_iff_eq.mpr hgid⟩)
      · obtain ⟨h1, h2, h3⟩ := ih (r.guild_id :: seen) y h
        have hne : y.guild_id ≠ r.guild_id := fun he => h2 (he ▸ List.mem_cons_self _ _)
        refine ⟨List.mem_cons_of_mem _ h1, fun hin => h2 (List.mem_cons_of_mem _ hin), ?_⟩
        intro s hsm hgid
        rcases List.mem_cons.mp hsm with h4 | h4
        · subst h4
          exact absurd hgid.symm hne
        · exact h3 s h4 hgid

theorem distinctOnAux_pairwise (l : List GuildRow) :
    ∀ (seen : List String),
      (distinctOnAux l seen).Pairwise (fun a b => a.guild_id ≠ b.guild_id) := by
  induction l with
  | nil => intro seen; exact List.Pairwise.nil
  | cons r rest ih =>
    intro seen
    simp only [distinctOnAux]
    by_cases hs : r.guild_id ∈ seen
    · rw [if_pos hs]
      exact ih seen
    · rw [if_neg hs]
      refine List.Pairwise.cons ?_ (ih (r.guild_id :: seen))
      intro y hy
      have h2 := (distinctOnAux_sound rest (r.guild_id :: seen) y hy).2.1
      rw [latestIn_filter_guild_id r rest]
      exact fun he => h2 (he ▸ List.mem_cons_self _ _)

theorem distinctOnAux_complete (l : List GuildRow) :
    ∀ (seen : List String), ∀ s ∈ l, s.guild_id ∉ seen →
      ∃ y ∈ distinctOnAux l seen, y.guild_id = s.guild_id := by
  induction l with
  | nil => intro seen s hs; cases hs
  | cons r rest ih =>
    intro seen s hs hns
    simp only [distinctOnAux]
    by_cases hseen : r.guild_id ∈ seen
    · rw [if_pos hseen]
      rcases List.mem_cons.mp hs with h | h
      · subst h
        exact absurd hseen hns
      · exact ih seen s h hns
    · rw [if_neg hseen]
      by_cases hid : s.guild_id = r.guild_id
      · refine ⟨_, List.mem_cons_self _ _, ?_⟩
        rw [latestIn_filter_guild_id r rest, hid]
      · rcases List.mem_cons.mp hs with h | h
        · subst h
          exact absurd rfl hid
        · obtain ⟨y, hy1, hy2⟩ := ih (r.guild_id :: seen) s h (by
            intro hin
            rcases List.mem_cons.mp hin with h1 | h1
            · exact hid h1
            · exact hns h1)
          exact ⟨y, List.mem_cons_of_mem _ hy1, hy2⟩

theorem distinctOnGuildId_sound (l : List GuildRow) :
    ∀ y ∈ distinctOnGuildId l,
      y ∈ l ∧ ∀ s ∈ l, s.guild_id = y.guild_id → s.capture_date ≤ y.capture_date := by
  intro y hy
  obtain ⟨h1, _, h3⟩ := distinctOnAux_sound l [] y hy
  exact ⟨h1, h3⟩

theorem distinctOnGuildId_pairwise (l : List GuildRow) :
    (distinctOnGuildId l).Pairwise (fun a b => a.guild_id ≠ b.guild_id) :=
  distinctOnAux_pairwise l []

theorem distinctOnGuildId_complete (l : List GuildRow) :
    ∀ s ∈ l, ∃ y ∈ distinctOnGuildId l, y.guild_id = s.guild_id :=
  fun s hs => distinctOnAux_complete l [] s hs (by intro h; cases h)

/-! ### Characterization of the single-guild fetch -/

theorem distinctOnGuildId_cons (x : GuildRow) (xs : List GuildRow) :
    distinctOnGuildId (x :: xs) =
      latestIn x (xs.filter (fun y => y.guild_id == x.guild_id)) ::
        distinctOnAux xs [x.guild_id] := by
  simp [distinctOnGuildId, distinctOnAux]

theorem get_guild_row_none (db : DB) (g : String)
    (h : ∀ r ∈ db.guilds, r.guild_id ≠ g) : get_guild_row db g = none := by
  have hf : db.guilds.filter (fun r => r.guild_id == g) = [] :=
    List.filter_eq_nil_iff.mpr (fun a ha hb => h a ha (eq_of_beq hb))
  rw [get_guild_row, hf]
  rfl

theorem get_guild_row_some (db : DB) (g : String)
    (h : ∃ r ∈ db.guilds, r.guild_id = g) :
    ∃ y, get_guild_row db g = some y ∧ y ∈ db.guilds ∧ y.guild_id = g ∧
      ∀ s ∈ db.guilds, s.guild_id = g → s.capture_date ≤ y.capture_date := by
  obtain ⟨r, hr, hrg⟩ := h
  have hrf : r ∈ db.guilds.filter (fun x => x.guild_id == g) :=
    List.mem_filter.mpr ⟨hr, beq_iff_eq.mpr hrg⟩
  have hne : db.guilds.filter (fun x => x.guild_id == g) ≠ [] :=
    fun he => by rw [he] at hrf; cases hrf
  have hne2 : distinctOnGuildId (db.guilds.filter (fun x => x.guild_id == g)) ≠ [] := by
    rcases he : db.guilds.filter (fun x => x.guild_id == g) with _ | ⟨x, xs⟩
    · exact absurd he hne
    · rw [he, distinctOnGuildId_cons]
      exact List.cons_ne_nil _ _
  set l := distinctOnGuildId (db.guilds.filter (fun x => x.guild_id == g)) with hl
  obtain ⟨y, hy⟩ : ∃ y, l.head? = some y := by
    rcases l with _ | ⟨x, xs⟩
    · exact absurd rfl hne2
    · exact ⟨x, rfl⟩
  have hym : y ∈ l := List.mem_of_mem_head? (by rw [hy]; rfl)
  obtain ⟨hy1, hy2⟩ := distinctOnGuildId_sound _ y hym
  have hygid : y.guild_id = g := eq_of_beq (List.mem_filter.mp hy1).2
  refine ⟨y, ?_, (List.mem_filter.mp hy1).1, hygid, ?_⟩
  · rw [get_guild_row, ← hl, hy]
  · intro s hs hsg
    exact hy2 s (List.mem_filter.mpr ⟨hs, beq_iff_eq.mpr hsg⟩) (hsg.trans hygid.symm)

/-! ### The format_json field rule -/

theorem lookup_format_fields (jk : List String) (l : List (String × Val)) (k : String) :
    (format_fields jk l).lookup k =
      (l.lookup k).map (fun v => if k ∈ jk then jloads v else v) := by
  induction l with
  | nil => rfl
  | cons kv rest ih =>
    obtain ⟨a, b⟩ := kv
    simp only [format_fields, List.map_cons] at ih ⊢
    rcases hk : k == a with _ | _
    · simp only [List.lookup, hk]
      exact ih
    · have hka : k = a := eq_of_beq hk
      subst hka
      simp only [List.lookup, hk]
      rfl

/-! ### Order of the history queries -/

theorem guild_history_rows_sorted (db : DB) (g : String) :
    (guild_history_rows db g).Pairwise captureOrder :=
  List.sorted_insertionSort captureOrder _

theorem guild_history_rows_perm (db : DB) (g : String) :
    (guild_history_rows db g).Perm (db.guilds.filter (fun r => r.guild_id == g)) :=
  List.perm_insertionSort captureOrder _

theorem guild_history_rows_nil (db : DB) (g : String)
    (h : ∀ r ∈ db.guilds, r.guild_id ≠ g) : guild_history_rows db g = [] := by
  have hf : db.guilds.filter (fun r => r.guild_id == g) = [] :=
    List.filter_eq_nil_iff.mpr (fun a ha hb => h a ha (eq_of_beq hb))
  rw [guild_history_rows, hf]
  rfl

/-! ### The upsert against the guild_id uniqueness constraint -/

theorem guildInfo_update_guild_id (g d : String) (r : GuildInfoRow) :
    (if r.guild_id == g then { r with discord := d } else r).guild_id = r.guild_id := by
  by_cases h : r.guild_id == g
  · rw [if_pos h]
  · rw [if_neg h]

theorem filter_update_eq (g d : String) (l : List GuildInfoRow)
    (h : l.Pairwise (fun a b => a.guild_id ≠ b.guild_id))
    (hany : l.any (fun r => r.guild_id == g) = true) :
    (l.map (fun r => if r.guild_id == g then { r with discord := d } else r)).filter
      (fun r => r.guild_id == g) = [{ guild_id := g, discord := d }] := by
  induction l with
  | nil => cases hany
  | cons x xs ih =>
    by_cases hx : x.guild_id = g
    · have hxb : (x.guild_id == g) = true := beq_iff_eq.mpr hx
      have hrest : (xs.map (fun r => if r.guild_id == g then { r with discord := d } else r)).filter
          (fun r => r.guild_id == g) = [] := by
        refine List.filter_eq_nil_iff.mpr ?_
        intro a ha hab
        rcases List.mem_map.mp ha with ⟨u, hu, hue⟩
        have hneq : u.guild_id ≠ g := by
          intro he
          exact (List.pairwise_cons.mp h).1 u hu (hx.trans he.symm)
        refine hneq ?_
        have hau : a.guild_id = u.guild_id := by
          rw [← hue]
          exact guildInfo_update_guild_id g d u
        rw [← hau]
        exact eq_of_beq hab
      have hhead : (if x.guild_id == g then { x with discord := d } else x) =
          ({ guild_id := g, discord := d } : GuildInfoRow) := by
        obtain ⟨xg, xd⟩ := x
        have hx2 : xg = g := hx
        subst hx2
        rw [if_pos hxb]
      rw [List.map_cons, hhead, List.filter_cons_of_pos (by exact beq_self_eq_true g), hrest]
    · have hxb : (x.guild_id == g) = false := by
        rcases hb : x.guild_id == g with _ | _
        · rfl
        · exact absurd (eq_of_beq hb) hx
      have hany2 : xs.any (fun r => r.guild_id == g) = true := by
        rcases List.any_eq_true.mp hany with ⟨u, hu, hub⟩
        rcases List.mem_cons.mp hu with h1 | h1
        · exact absurd (eq_of_beq (h1 ▸ hub)) hx
        · exact List.any_eq_true.mpr ⟨u, h1, hub⟩
      rw [List.map_cons, if_neg (by rw [hxb]; exact Bool.false_ne_true),
        List.filter_cons_of_neg (by rw [hxb]; exact Bool.false_ne_true)]
      exact ih (List.pairwise_cons.mp h).2 hany2

/-! ### Uniqueness is preserved by the upsert -/

theorem upsert_preserves_unique (db : DB) (g d : String)
    (h : db.guild_information.Pairwise (fun a b => a.guild_id ≠ b.guild_id)) :
    (upsert_guild_info db g d).guild_information.Pairwise
      (fun a b => a.guild_id ≠ b.guild_id) := by
  simp only [upsert_guild_info]
  by_cases hany : db.guild_information.any (fun r => r.guild_id == g) = true
  · rw [if_pos hany]
    refine List.pairwise_map.mpr (h.imp ?_)
    intro a b hab
    rw [guildInfo_update_guild_id, guildInfo_update_guild_id]
    exact hab
  · rw [if_neg hany]
    refine List.pairwise_append.mpr ⟨h, List.pairwise_singleton _ _, ?_⟩
    intro a ha b hb
    have hb2 : b = { guild_id := g, discord := d } := by
      rcases List.mem_cons.mp hb with h1 | h1
      · exact h1
      · cases h1
    subst hb2
    intro he
    exact hany (List.any_eq_true.mpr ⟨a, ha, beq_iff_eq.mpr he⟩)

theorem upsert_filter (db : DB) (g d : String)
    (h : db.guild_information.Pairwise (fun a b => a.guild_id ≠ b.guild_id)) :
    (upsert_guild_info db g d).guild_information.filter (fun r => r.guild_id == g) =
      [{ guild_id := g, discord := d }] := by
  simp only [upsert_guild_info]
  by_cases hany : db.guild_information.any (fun r => r.guild_id == g) = true
  · rw [if_pos hany]
    exact filter_update_eq g d _ h hany
  · rw [if_neg hany]
    have h1 : db.guild_information.filter (fun r => r.guild_id == g) = [] := by
      refine List.filter_eq_nil_iff.mpr ?_
      intro a ha hab
      exact hany (List.any_eq_true.mpr ⟨a, ha, hab⟩)
    rw [List.filter_append, h1, List.filter_cons_of_pos (by exact beq_self_eq_true g)]
    rfl

theorem get_guild_discord_upsert (db : DB) (g d : String) (conn : Option Conn)
    (h : db.guild_information.Pairwise (fun a b => a.guild_id ≠ b.guild_id)) :
    get_guild_discord (upsert_guild_info db g d) g conn = some d := by
  rw [get_guild_discord, upsert_filter db g d h]
  rfl

/-! ### Rounding facts -/

theorem round2_two_decimals (q : Rat) : ∃ n : Int, round2 q = (n : Rat) / 100 := by
  rw [round2]
  by_cases h : q < 0
  · rw [if_pos h]
    refine ⟨-(-q * 100 + 1 / 2).floor, ?_⟩
    push_cast
    ring
  · rw [if_neg h]
    exact ⟨(q * 100 + 1 / 2).floor, rfl⟩

theorem round2_half_up : round2 (12345 / 1000) = 1235 / 100 := by
  rw [round2, if_neg (by norm_num), Rat.floor_def']
  norm_num

theorem round2_half_away_neg : round2 (-(12345 / 1000)) = -(1235 / 100) := by
  rw [round2, if_pos (by norm_num), neg_neg, Rat.floor_def']
  norm_num

/-! ### The claims -/

/-- C1: for every guild_id that has at least one stored snapshot in the guilds
table, get_guild returns the record built (via the select list and
format_json) from a row of that guild whose capture_date is the maximum among
all its rows. -/
theorem C1_get_guild_returns_latest (db : DB) (jk : List String) (now : Int) (g : String)
    (conn : Option Conn) (h : ∃ r ∈ db.guilds, r.guild_id = g) :
    ∃ y, get_guild_row db g = some y ∧ y ∈ db.guilds ∧ y.guild_id = g ∧
      (∀ s ∈ db.guilds, s.guild_id = g → s.capture_date ≤ y.capture_date) ∧
      get_guild jk now db g conn = some (format_fields jk (guildRecord now y)) := by
  obtain ⟨y, h1, h2, h3, h4⟩ := get_guild_row_some db g h
  refine ⟨y, h1, h2, h3, h4, ?_⟩
  rw [get_guild, h1]
  rfl

/-- Witness for C1 at the example database: guild g1 has snapshots at times 5
and 9, and get_guild is built from the one at time 9. -/
theorem C1_witness :
    ∃ y, get_guild_row dbEx "g1" = some y ∧ y ∈ dbEx.guilds ∧ y.guild_id = "g1" ∧
      (∀ s ∈ dbEx.guilds, s.guild_id = "g1" → s.capture_date ≤ y.capture_date) ∧
      get_guild [] 100 dbEx "g1" none = some (format_fields [] (guildRecord 100 y)) :=
  C1_get_guild_returns_latest dbEx [] 100 "g1" none ⟨rowG1b, by decide, by decide⟩

/-- C2 counterexample: with json_keys = ["name"], get_names returns the stored
name text of player uj undecoded; the uniform decoding rule would return the
JSON-decoded value, so the rule is not applied to every query result. -/
theorem C2_counterexample :
    get_names dbEx ["uj"] = [("uj", "\"abc\"")] ∧
    get_names_asSpecified ["name"] dbEx ["uj"] = [("uj", Val.vjson (JsonVal.jstr "abc"))] ∧
    (get_names dbEx ["uj"]).map (fun kv => (kv.1, Val.vstr kv.2)) ≠
      get_names_asSpecified ["name"] dbEx ["uj"] :=
  ⟨by decide, by decide, by decide⟩

/-- C2 amended: the format_json decoding rule (JSON-decode exactly the fields
named in json_keys, pass every other field through unchanged) is applied to
the results of get_guilds, get_guild, get_guild_metrics, get_guild_history and
get_players; get_id_name_autocomplete, get_names and get_guild_discord return
stored values directly, with no decoding applied. -/
theorem C2_amended (jk : List String) (db : DB) (now : Int) (g : String)
    (uuids : List String) (conn : Option Conn) :
    (∀ (l : List (String × Val)) (k : String),
      (format_fields jk l).lookup k =
        (l.lookup k).map (fun v => if k ∈ jk then jloads v else v)) ∧
    get_guilds jk now db =
      (get_guilds_rows db).map (fun r => format_fields jk (guildSummaryRecord now r)) ∧
    get_guild jk now db g conn = format_json jk ((get_guild_row db g).map (guildRecord now)) ∧
    get_guild_metrics jk now db g =
      (guild_history_rows db g).map (fun r => format_fields jk (metricsRecord now r)) ∧
    get_guild_history jk now db g =
      (guild_history_rows db g).map (fun r => format_fields jk (historyRecord now r)) ∧
    get_players jk now db uuids conn =
      (db.players.filter (fun p => uuids.contains p.uuid)).map
        (fun p => format_fields jk (playerRecord now p)) ∧
    (∀ kv ∈ get_names db uuids, ∃ p ∈ db.players, p.uuid = kv.1 ∧ p.name = kv.2) ∧
    (∀ m ∈ get_id_name_autocomplete db, ∃ r ∈ get_guilds_rows db,
      m = [("id", Val.vstr r.guild_id), ("name", Val.vstr r.guild_name)]) ∧
    (∀ s, get_guild_discord db g conn = some s →
      ∃ r ∈ db.guild_information, r.guild_id = g ∧ r.discord = s) := by
  refine ⟨lookup_format_fields jk, rfl, rfl, rfl, rfl, rfl, ?_, ?_, ?_⟩
  · intro kv hkv
    rcases List.mem_map.mp hkv with ⟨p, hp, he⟩
    exact ⟨p, (List.mem_filter.mp hp).1, by rw [← he], by rw [← he]⟩
  · intro m hm
    rcases List.mem_map.mp hm with ⟨r, hr, he⟩
    exact ⟨r, hr, he.symm⟩
  · intro s hs
    rcases Option.map_eq_some'.mp hs with ⟨a, ha1, ha2⟩
    have ham : a ∈ db.guild_information.filter (fun r => r.guild_id == g) :=
      List.mem_of_mem_head? (by rw [ha1]; rfl)
    exact ⟨a, (List.mem_filter.mp ham).1, eq_of_beq (List.mem_filter.mp ham).2, ha2⟩

/-- Witness for the amended C2 at the example database. -/
theorem C2_amended_witness :
    (∀ kv ∈ get_names dbEx ["u1"], ∃ p ∈ dbEx.players, p.uuid = kv.1 ∧ p.name = kv.2) ∧
    get_guilds [] 100 dbEx =
      (get_guilds_rows dbEx).map (fun r => format_fields [] (guildSummaryRecord 100 r)) :=
  ⟨(C2_amended [] dbEx 100 "g1" ["u1"] none).2.2.2.2.2.2.1,
   (C2_amended [] dbEx 100 "g1" ["u1"] none).2.1⟩

/-- C3 counterexample: get_guilds declares no optional connection parameter,
so it is not the case that every one of the nine operations does. -/
theorem C3_counterexample :
    hasConnParam Op.get_guilds = false ∧ ¬ (∀ op : Op, hasConnParam op = true) := by
  refine ⟨rfl, fun h => ?_⟩
  have h2 := h Op.get_guilds
  simp [hasConnParam] at h2

/-- C3 amended: exactly three of the nine catalog operations (get_guild,
get_players, get_guild_discord) accept the optional pre-borrowed connection
parameter; the other six always execute on the shared pool. -/
theorem C3_amended (op : Op) :
    hasConnParam op = true ↔
      (op = Op.get_guild ∨ op = Op.get_players ∨ op = Op.get_guild_discord) := by
  cases op <;> decide

/-- Witness for the amended C3 at one concrete operation. -/
theorem C3_amended_witness :
    hasConnParam Op.get_players = true ↔
      (Op.get_players = Op.get_guild ∨ Op.get_players = Op.get_players ∨
        Op.get_players = Op.get_guild_discord) :=
  C3_amended Op.get_players

/-- C4: get_guilds maps over get_guilds_rows, which carries at most one row
per distinct guild_id, and each carried row is a stored row of its guild with
maximal capture_date. -/
theorem C4_get_guilds_distinct (db : DB) (jk : List String) (now : Int) :
    get_guilds jk now db =
      (get_guilds_rows db).map (fun r => format_fields jk (guildSummaryRecord now r)) ∧
    (get_guilds_rows db).Pairwise (fun a b => a.guild_id ≠ b.guild_id) ∧
    ∀ r ∈ get_guilds_rows db, r ∈ db.guilds ∧
      ∀ s ∈ db.guilds, s.guild_id = r.guild_id → s.capture_date ≤ r.capture_date := by
  refine ⟨rfl, distinctOnGuildId_pairwise db.guilds, ?_⟩
  intro r hr
  exact distinctOnGuildId_sound db.guilds r hr

/-- Witness for C4 at the example database. -/
theorem C4_witness :
    (get_guilds_rows dbEx).Pairwise (fun a b => a.guild_id ≠ b.guild_id) ∧
    rowG1b ∈ dbEx.guilds ∧
    (∀ s ∈ dbEx.guilds, s.guild_id = rowG1b.guild_id → s.capture_date ≤ rowG1b.capture_date) := by
  have h := C4_get_guilds_distinct dbEx [] 100
  exact ⟨h.2.1, (h.2.2 rowG1b (by decide)).1, (h.2.2 rowG1b (by decide)).2⟩

/-- C5 counterexample: guild g2 has one stored snapshot, whose players array
is empty (count 0), yet the players field of its get_guilds record is SQL NULL
(array_length of an empty array), not the count 0. -/
theorem C5_counterexample :
    (dbEx.guilds.map (fun r => (r.guild_id, r.players))).contains ("g2", ([] : List String)) = true ∧
    (get_guilds_rows dbEx).map (fun r => r.guild_id) = ["g1", "g2"] ∧
    (get_guilds [] 100 dbEx).map (fun m => m.lookup "players") =
      [some (Val.vint 2), some Val.vnull] ∧
    some Val.vnull ≠ some (Val.vint 0) :=
  ⟨by decide, by decide, by decide, by decide⟩

/-- C5 amended: for every guild_id with at least one stored snapshot, the
players field of its get_guilds record is the length of the latest snapshot's
player-UUID sequence when that sequence is nonempty, and SQL NULL when the
sequence is empty. -/
theorem C5_amended (db : DB) (jk : List String) (now : Int) (g : String)
    (h : ∃ r ∈ db.guilds, r.guild_id = g) (hjk : "players" ∉ jk) :
    ∃ y ∈ get_guilds_rows db, y.guild_id = g ∧
      (∀ s ∈ db.guilds, s.guild_id = g → s.capture_date ≤ y.capture_date) ∧
      format_fields jk (guildSummaryRecord now y) ∈ get_guilds jk now db ∧
      (format_fields jk (guildSummaryRecord now y)).lookup "players" =
        some (if y.players = [] then Val.vnull else Val.vint (y.players.length : Int)) := by
  obtain ⟨r, hr, hrg⟩ := h
  obtain ⟨y, hy, hyg⟩ := distinctOnGuildId_complete db.guilds r hr
  have hsound := distinctOnGuildId_sound db.guilds y hy
  refine ⟨y, hy, hyg.trans hrg, ?_, ?_, ?_⟩
  · intro s hs hsg
    refine hsound.2 s hs ?_
    rw [hsg, hyg, hrg]
  · exact List.mem_map.mpr ⟨y, hy, rfl⟩
  · rw [lookup_format_fields]
    have h0 : (guildSummaryRecord now y).lookup "players" = some (array_length y.players) := rfl
    rw [h0, Option.map_some', if_neg hjk, array_length]

/-- Witness for the amended C5: guild g2 of the example database, whose only
snapshot stores an empty players array. -/
theorem C5_amended_witness :
    ∃ y ∈ get_guilds_rows dbEx, y.guild_id = "g2" ∧
      (∀ s ∈ dbEx.guilds, s.guild_id = "g2" → s.capture_date ≤ y.capture_date) ∧
      format_fields [] (guildSummaryRecord 100 y) ∈ get_guilds [] 100 dbEx ∧
      (format_fields [] (guildSummaryRecord 100 y)).lookup "players" =
        some (if y.players = [] then Val.vnull else Val.vint (y.players.length : Int)) :=
  C5_amended dbEx [] 100 "g2" ⟨rowG2, by decide, by decide⟩ (by decide)

/-- C6: a guild_id with no stored snapshot makes get_guild return None, and a
guild_id with no mapping row makes get_guild_discord return None; both are
total functions of the state, so neither case is a failure. -/
theorem C6_not_found_returns_null (db : DB) (jk : List String) (now : Int) (g : String)
    (conn : Option Conn) :
    ((∀ r ∈ db.guilds, r.guild_id ≠ g) → get_guild jk now db g conn = none) ∧
    ((∀ r ∈ db.guild_information, r.guild_id ≠ g) → get_guild_discord db g conn = none) := by
  constructor
  · intro h
    rw [get_guild, get_guild_row_none db g h]
    rfl
  · intro h
    have hf : db.guild_information.filter (fun r => r.guild_id == g) = [] :=
      List.filter_eq_nil_iff.mpr (fun a ha hb => h a ha (eq_of_beq hb))
    rw [get_guild_discord, hf]
    rfl

/-- Witness for C6 at a guild_id absent from the example database. -/
theorem C6_witness :
    get_guild [] 100 dbEx "nope" none = none ∧ get_guild_discord dbEx "nope" none = none :=
  ⟨(C6_not_found_returns_null dbEx [] 100 "nope" none).1 (by decide),
   (C6_not_found_returns_null dbEx [] 100 "nope" none).2 (by decide)⟩

/-- C7: on a mapping table with unique guild_ids, upsert_guild_info leaves
exactly one row for the written guild_id; after two calls that row carries the
discord value of the most recent call, and get_guild_discord returns it. -/
theorem C7_upsert_last_write_wins (db : DB) (g d1 d2 : String) (conn : Option Conn)
    (h : db.guild_information.Pairwise (fun a b => a.guild_id ≠ b.guild_id)) :
    ((upsert_guild_info db g d1).guild_information.filter (fun r => r.guild_id == g) =
      [{ guild_id := g, discord := d1 }]) ∧
    ((upsert_guild_info (upsert_guild_info db g d1) g d2).guild_information.filter
        (fun r => r.guild_id == g) = [{ guild_id := g, discord := d2 }]) ∧
    get_guild_discord (upsert_guild_info (upsert_guild_info db g d1) g d2) g conn = some d2 := by
  have h1 := upsert_preserves_unique db g d1 h
  exact ⟨upsert_filter db g d1 h, upsert_filter _ g d2 h1,
    get_guild_discord_upsert _ g d2 conn h1⟩

/-- Witness for C7: the end-to-end scenario of the spec, writing D1 then D2
for guild G1 and reading D2 back. -/
theorem C7_witness :
    ((upsert_guild_info dbEx "G1" "D1").guild_information.filter
        (fun r => r.guild_id == "G1") = [{ guild_id := "G1", discord := "D1" }]) ∧
    ((upsert_guild_info (upsert_guild_info dbEx "G1" "D1") "G1" "D2").guild_information.filter
        (fun r => r.guild_id == "G1") = [{ guild_id := "G1", discord := "D2" }]) ∧
    get_guild_discord (upsert_guild_info (upsert_guild_info dbEx "G1" "D1") "G1" "D2") "G1" none =
      some "D2" :=
  C7_upsert_last_write_wins dbEx "G1" "D1" "D2" none (by decide)

/-- C8: get_guild_metrics and get_guild_history map over the guild's snapshots
sorted non-decreasing in capture_date, and both return the empty sequence when
the guild has no snapshots. -/
theorem C8_history_sorted (db : DB) (jk : List String) (now : Int) (g : String) :
    (guild_history_rows db g).Pairwise captureOrder ∧
    (guild_history_rows db g).Perm (db.guilds.filter (fun r => r.guild_id == g)) ∧
    get_guild_metrics jk now db g =
      (guild_history_rows db g).map (fun r => format_fields jk (metricsRecord now r)) ∧
    get_guild_history jk now db g =
      (guild_history_rows db g).map (fun r => format_fields jk (historyRecord now r)) ∧
    ((∀ r ∈ db.guilds, r.guild_id ≠ g) →
      get_guild_metrics jk now db g = [] ∧ get_guild_history jk now db g = []) := by
  refine ⟨guild_history_rows_sorted db g, guild_history_rows_perm db g, rfl, rfl, ?_⟩
  intro h
  have h0 := guild_history_rows_nil db g h
  constructor
  · rw [get_guild_metrics, h0]
    rfl
  · rw [get_guild_history, h0]
    rfl

/-- Witness for C8: the two snapshots of guild g1 come back oldest first, and
a guild without snapshots yields empty sequences. -/
theorem C8_witness :
    (guild_history_rows dbEx "g1").Pairwise captureOrder ∧
    get_guild_metrics [] 100 dbEx "nope" = [] ∧
    get_guild_history [] 100 dbEx "nope" = [] := by
  have h1 := (C8_history_sorted dbEx [] 100 "g1").1
  have h2 := (C8_history_sorted dbEx [] 100 "nope").2.2.2.2 (by decide)
  exact ⟨h1, h2.1, h2.2⟩

/-- C9: every numeric field the queries designate for rounding is produced by
round2, round2 always yields a multiple of 1/100 (exactly two decimal places),
and round2 follows PostgreSQL numeric ROUND, taking 12.345 to 12.35 and
-12.345 to -12.35 (halves away from zero). -/
theorem C9_rounding (now : Int) (r : GuildRow) (p : PlayerRow) :
    ((guildSummaryRecord now r).lookup "average_weight" =
        some (Val.vrat (round2 r.average_weight)) ∧
      (guildSummaryRecord now r).lookup "average_skills" =
        some (Val.vrat (round2 r.average_skills)) ∧
      (guildSummaryRecord now r).lookup "average_catacombs" =
        some (Val.vrat (round2 r.average_catacombs)) ∧
      (guildSummaryRecord now r).lookup "average_slayer" =
        some (Val.vrat (round2 r.average_slayer))) ∧
    ((guildRecord now r).lookup "average_weight" = some (Val.vrat (round2 r.average_weight)) ∧
      (guildRecord now r).lookup "average_skills" = some (Val.vrat (round2 r.average_skills)) ∧
      (guildRecord now r).lookup "average_catacombs" =
        some (Val.vrat (round2 r.average_catacombs)) ∧
      (guildRecord now r).lookup "average_slayer" = some (Val.vrat (round2 r.average_slayer))) ∧
    ((metricsRecord now r).lookup "average_weight" = some (Val.vrat (round2 r.average_weight)) ∧
      (metricsRecord now r).lookup "average_skills" = some (Val.vrat (round2 r.average_skills)) ∧
      (metricsRecord now r).lookup "average_catacombs" =
        some (Val.vrat (round2 r.average_catacombs)) ∧
      (metricsRecord now r).lookup "average_slayer" = some (Val.vrat (round2 r.average_slayer))) ∧
    ((playerRecord now p).lookup "weight" = some (Val.vrat (round2 p.weight)) ∧
      (playerRecord now p).lookup "average_skill" = some (Val.vrat (round2 p.average_skill)) ∧
      (playerRecord now p).lookup "catacomb" = some (Val.vrat (round2 p.catacomb)) ∧
      (playerRecord now p).lookup "total_slayer" = some (Val.vrat (round2 p.total_slayer))) ∧
    (∀ q : Rat, ∃ n : Int, round2 q = (n : Rat) / 100) ∧
    round2 (12345 / 1000) = 1235 / 100 ∧
    round2 (-(12345 / 1000)) = -(1235 / 100) :=
  ⟨⟨rfl, rfl, rfl, rfl⟩, ⟨rfl, rfl, rfl, rfl⟩, ⟨rfl, rfl, rfl, rfl⟩, ⟨rfl, rfl, rfl, rfl⟩,
    round2_two_decimals, round2_half_up, round2_half_away_neg⟩

/-- C10: on the same guild row, the two member-count computations disagree
exactly on the empty players array: array_length (the players field of
get_guilds) is SQL NULL there while cardinality (member_count of
get_guild_metrics) is 0; on every nonempty array both give the length. -/
theorem C10_array_length_vs_cardinality (now : Int) (r : GuildRow) :
    (r.players = [] →
      (guildSummaryRecord now r).lookup "players" = some Val.vnull ∧
      (metricsRecord now r).lookup "member_count" = some (Val.vint 0)) ∧
    (r.players ≠ [] →
      (guildSummaryRecord now r).lookup "players" =
        some (Val.vint (r.players.length : Int)) ∧
      (metricsRecord now r).lookup "member_count" =
        some (Val.vint (r.players.length : Int))) := by
  constructor
  · intro h
    constructor
    · have h0 : (guildSummaryRecord now r).lookup "players" = some (array_length r.players) := rfl
      rw [h0, array_length, if_pos h]
    · have h0 : (metricsRecord now r).lookup "member_count" = some (cardinality r.players) := rfl
      rw [h0, cardinality, h]
      rfl
  · intro h
    constructor
    · have h0 : (guildSummaryRecord now r).lookup "players" = some (array_length r.players) := rfl
      rw [h0, array_length, if_neg h]
    · rfl

/-- Witness for C10: guild g2 stores an empty players array (NULL vs 0), guild
g1 a two-element one (both sides 2). -/
theorem C10_witness :
    ((guildSummaryRecord 100 rowG2).lookup "players" = some Val.vnull ∧
      (metricsRecord 100 rowG2).lookup "member_count" = some (Val.vint 0)) ∧
    ((guildSummaryRecord 100 rowG1b).lookup "players" = some (Val.vint 2) ∧
      (metricsRecord 100 rowG1b).lookup "member_count" = some (Val.vint 2)) :=
  ⟨(C10_array_length_vs_cardinality 100 rowG2).1 (by decide),
   (C10_array_length_vs_cardinality 100 rowG1b).2 (by decide)⟩
